import Mathlib

/-
Verification of the double-ESC checkpoint-restore feature and the
manage_tabs tool of the kilocode repository.

The definitions below are shallow embeddings of the TypeScript sources:
  * cli/src/state/atoms/checkpoint.ts   (gesture detector, selection state
    machine, checkpoint ledger helpers)
  * src/core/tools/manageTabsTool.ts    (tool validation, parseFileWithLine)
JavaScript numbers used as timestamps and cursor indices are modelled as
Int (all arithmetic involved is exact integer arithmetic); strings whose
character content matters are modelled as List Char.
-/

namespace KiloCode

-- ============================================================================
-- Gesture detector (checkpoint.ts, recordEscPressAtom / resetEscPressTimerAtom)
-- ============================================================================

/-- DOUBLE_ESC_WINDOW_MS from checkpoint.ts: time window for double-ESC
detection, in milliseconds. -/
def DOUBLE_ESC_WINDOW_MS : Int := 500

/-- recordEscPressAtom from checkpoint.ts.  State is the value of
lastEscPressTimeAtom (initially 0); the result is the boolean returned to the
caller together with the updated state, which is unconditionally the current
time. -/
def recordEscPress (lastEscPressTime now : Int) : Bool × Int :=
  let timeSinceLastPress := now - lastEscPressTime
  (decide (0 < timeSinceLastPress) && decide (timeSinceLastPress ≤ DOUBLE_ESC_WINDOW_MS), now)

/-- resetEscPressTimerAtom from checkpoint.ts: forces lastEscPressTime back to
the initial value 0. -/
def resetEscPressTimer : Int := 0

/-- The classification the specification describes for the gesture detector:
a press is double exactly when a previous press has been recorded
(lastPressTime differs from the never-pressed sentinel, which the code
realises as 0) and the window test passes.  Used to compare the spec text
with the code; not part of the source. -/
def specIsDouble (lastEscPressTime now : Int) : Bool :=
  decide (lastEscPressTime ≠ 0) &&
    (decide (0 < now - lastEscPressTime) && decide (now - lastEscPressTime ≤ DOUBLE_ESC_WINDOW_MS))

-- ============================================================================
-- Data model (checkpoint.ts types and constants)
-- ============================================================================

/-- CheckpointInfo from checkpoint.ts. -/
structure CheckpointInfo where
  ts : Int
  commitHash : String
  isAutoSaved : Bool
  relativeTime : String
  userMessagePreview : Option String
deriving DecidableEq, Repr

/-- RestoreType from checkpoint.ts. -/
inductive RestoreType where
  | both
  | conversation
  | code
deriving DecidableEq, Repr

/-- RestoreTypeOption from checkpoint.ts. -/
structure RestoreTypeOption where
  value : RestoreType
  label : String
  description : String
deriving DecidableEq, Repr

/-- RESTORE_TYPE_OPTIONS from checkpoint.ts: the fixed 3-option scope list. -/
def RESTORE_TYPE_OPTIONS : List RestoreTypeOption :=
  [ { value := RestoreType.both
    , label := "Restore Both"
    , description := "Restore conversation and code to this checkpoint" }
  , { value := RestoreType.conversation
    , label := "Conversation Only"
    , description := "Restore conversation history only (keep current code)" }
  , { value := RestoreType.code
    , label := "Code Only"
    , description := "Restore code only (keep current conversation)" } ]

/-- The core state atoms of checkpoint.ts, collected into one record.
Cursor indices are JavaScript numbers, modelled as Int. -/
structure CheckpointState where
  checkpointSelectionMode : Bool
  restoreTypeSelectionMode : Bool
  selectedCheckpointIndex : Int
  selectedRestoreTypeIndex : Int
  selectedCheckpoint : Option CheckpointInfo
  lastEscPressTime : Int
deriving DecidableEq, Repr

/-- The initial values of the atoms: both modes off, both cursors 0, no
selected checkpoint, lastEscPressTime 0. -/
def initialCheckpointState : CheckpointState :=
  { checkpointSelectionMode := false
  , restoreTypeSelectionMode := false
  , selectedCheckpointIndex := 0
  , selectedRestoreTypeIndex := 0
  , selectedCheckpoint := none
  , lastEscPressTime := 0 }

-- ============================================================================
-- Derived and action atoms (checkpoint.ts)
-- ============================================================================

/-- currentSelectedCheckpointAtom from checkpoint.ts: null when the index is
out of range, otherwise the checkpoint at the index.  The checkpoint list is
a derived view of the message log and is passed in explicitly. -/
def currentSelectedCheckpoint (checkpoints : List CheckpointInfo) (s : CheckpointState) :
    Option CheckpointInfo :=
  let index := s.selectedCheckpointIndex
  if index < 0 ∨ (checkpoints.length : Int) ≤ index then none
  else checkpoints.get? index.toNat

/-- enterCheckpointSelectionModeAtom from checkpoint.ts: returns false and
changes nothing when no checkpoints exist; otherwise activates checkpoint
selection, deactivates restore-type selection, resets the checkpoint cursor
to 0 and clears the selected checkpoint. -/
def enterCheckpointSelectionMode (checkpoints : List CheckpointInfo) (s : CheckpointState) :
    Bool × CheckpointState :=
  if checkpoints.length > 0 then
    (true,
      { s with
        checkpointSelectionMode := true
        restoreTypeSelectionMode := false
        selectedCheckpointIndex := 0
        selectedCheckpoint := none })
  else
    (false, s)

/-- exitCheckpointSelectionModeAtom from checkpoint.ts. -/
def exitCheckpointSelectionMode (s : CheckpointState) : CheckpointState :=
  { s with
    checkpointSelectionMode := false
    restoreTypeSelectionMode := false
    selectedCheckpointIndex := 0
    selectedRestoreTypeIndex := 0
    selectedCheckpoint := none }

/-- confirmCheckpointSelectionAtom from checkpoint.ts: freezes the currently
selected checkpoint and moves to restore-type selection, resetting the
restore-type cursor to 0. -/
def confirmCheckpointSelection (checkpoints : List CheckpointInfo) (s : CheckpointState) :
    Bool × CheckpointState :=
  match currentSelectedCheckpoint checkpoints s with
  | none => (false, s)
  | some checkpoint =>
      (true,
        { s with
          selectedCheckpoint := some checkpoint
          checkpointSelectionMode := false
          restoreTypeSelectionMode := true
          selectedRestoreTypeIndex := 0 })

/-- backToCheckpointSelectionAtom from checkpoint.ts. -/
def backToCheckpointSelection (s : CheckpointState) : CheckpointState :=
  { s with
    restoreTypeSelectionMode := false
    checkpointSelectionMode := true
    selectedRestoreTypeIndex := 0 }

/-- navigateCheckpointUpAtom from checkpoint.ts. -/
def navigateCheckpointUp (checkpoints : List CheckpointInfo) (s : CheckpointState) :
    CheckpointState :=
  let count : Int := checkpoints.length
  if count = 0 then s
  else
    { s with
      selectedCheckpointIndex :=
        if s.selectedCheckpointIndex = 0 then count - 1 else s.selectedCheckpointIndex - 1 }

/-- navigateCheckpointDownAtom from checkpoint.ts. -/
def navigateCheckpointDown (checkpoints : List CheckpointInfo) (s : CheckpointState) :
    CheckpointState :=
  let count : Int := checkpoints.length
  if count = 0 then s
  else { s with selectedCheckpointIndex := (s.selectedCheckpointIndex + 1) % count }

/-- navigateRestoreTypeUpAtom from checkpoint.ts. -/
def navigateRestoreTypeUp (s : CheckpointState) : CheckpointState :=
  let count : Int := RESTORE_TYPE_OPTIONS.length
  { s with
    selectedRestoreTypeIndex :=
      if s.selectedRestoreTypeIndex = 0 then count - 1 else s.selectedRestoreTypeIndex - 1 }

/-- navigateRestoreTypeDownAtom from checkpoint.ts. -/
def navigateRestoreTypeDown (s : CheckpointState) : CheckpointState :=
  let count : Int := RESTORE_TYPE_OPTIONS.length
  { s with selectedRestoreTypeIndex := (s.selectedRestoreTypeIndex + 1) % count }

/-- recordEscPressAtom viewed as a transition on the collected state. -/
def recordEscPressState (now : Int) (s : CheckpointState) : CheckpointState :=
  { s with lastEscPressTime := (recordEscPress s.lastEscPressTime now).2 }

/-- resetEscPressTimerAtom viewed as a transition on the collected state. -/
def resetEscPressTimerState (s : CheckpointState) : CheckpointState :=
  { s with lastEscPressTime := resetEscPressTimer }

-- ============================================================================
-- Selection state machine as a transition system
-- ============================================================================

/-- Modelled from the spec: the keyboard dispatcher that decides which action
atom fires on a given key press is not among the provided sources (it lives in
the CLI input-handling layer, outside checkpoint.ts).  Following the spec's
transition list for the selection state machine, navigation, confirm and back
signals are consumed only while the corresponding mode is active, and the
double-gesture entry is evaluated only in the Idle state.  Each step may
observe a different derived checkpoint list, since the underlying message log
can change between steps. -/
inductive Step : CheckpointState → CheckpointState → Prop where
  | enter (checkpoints : List CheckpointInfo) (s : CheckpointState)
      (hc : s.checkpointSelectionMode = false) (hr : s.restoreTypeSelectionMode = false) :
      Step s (enterCheckpointSelectionMode checkpoints s).2
  | cancel (s : CheckpointState) :
      Step s (exitCheckpointSelectionMode s)
  | confirm (checkpoints : List CheckpointInfo) (s : CheckpointState)
      (h : s.checkpointSelectionMode = true) :
      Step s (confirmCheckpointSelection checkpoints s).2
  | back (s : CheckpointState) (h : s.restoreTypeSelectionMode = true) :
      Step s (backToCheckpointSelection s)
  | navUp (checkpoints : List CheckpointInfo) (s : CheckpointState)
      (h : s.checkpointSelectionMode = true) :
      Step s (navigateCheckpointUp checkpoints s)
  | navDown (checkpoints : List CheckpointInfo) (s : CheckpointState)
      (h : s.checkpointSelectionMode = true) :
      Step s (navigateCheckpointDown checkpoints s)
  | navScopeUp (s : CheckpointState) (h : s.restoreTypeSelectionMode = true) :
      Step s (navigateRestoreTypeUp s)
  | navScopeDown (s : CheckpointState) (h : s.restoreTypeSelectionMode = true) :
      Step s (navigateRestoreTypeDown s)
  | escPress (now : Int) (s : CheckpointState) :
      Step s (recordEscPressState now s)
  | escReset (s : CheckpointState) :
      Step s (resetEscPressTimerState s)

/-- States reachable from the initial atom values through the selection state
machine. -/
inductive Reachable : CheckpointState → Prop where
  | init : Reachable initialCheckpointState
  | step {s t : CheckpointState} (h : Reachable s) (hs : Step s t) : Reachable t

/-- A sample checkpoint record, used to instantiate theorems at concrete
inputs. -/
def sampleCheckpoint : CheckpointInfo :=
  { ts := 20
  , commitHash := "BBB"
  , isAutoSaved := false
  , relativeTime := "just now"
  , userMessagePreview := none }

/-- A sample state in checkpoint-selection mode. -/
def sampleChoosingState : CheckpointState :=
  { initialCheckpointState with checkpointSelectionMode := true }

-- ============================================================================
-- Checkpoint ledger helpers (checkpoint.ts, truncateText / findPrecedingUserMessage)
-- ============================================================================

/-- A chat message as consumed by the ledger helpers: the fields of
ExtensionMessage that checkpoint.ts reads.  The message text is a character
list; a missing text field is none. -/
structure ExtensionMessage where
  ts : Int
  type : String
  say : Option String
  text : Option (List Char)
deriving DecidableEq, Repr

/-- truncateText from checkpoint.ts: keep the text when it fits, otherwise
keep the first maxLength - 3 characters and append an ellipsis. -/
def truncateText (text : List Char) (maxLength : Nat) : List Char :=
  if text.length ≤ maxLength then text
  else text.take (maxLength - 3) ++ ['.', '.', '.']

/-- The trim applied by findPrecedingUserMessage before truncation: drop
whitespace from both ends. -/
def trimChars (text : List Char) : List Char :=
  ((text.dropWhile Char.isWhitespace).reverse.dropWhile Char.isWhitespace).reverse

/-- The loop body of findPrecedingUserMessage from checkpoint.ts, iterating
over the messages from the most recent end: skip messages at or after the
checkpoint timestamp, return the first user_feedback message with text,
trimmed and truncated to 50 characters. -/
def findPrecedingUserMessageAux (beforeTs : Int) : List ExtensionMessage → Option (List Char)
  | [] => none
  | msg :: rest =>
      if beforeTs ≤ msg.ts then findPrecedingUserMessageAux beforeTs rest
      else
        match msg.text with
        | some t =>
            if msg.type = "say" ∧ msg.say = some "user_feedback" ∧ t ≠ [] then
              some (truncateText (trimChars t) 50)
            else findPrecedingUserMessageAux beforeTs rest
        | none => findPrecedingUserMessageAux beforeTs rest

/-- findPrecedingUserMessage from checkpoint.ts: iterate backwards from the
end of the message list. -/
def findPrecedingUserMessage (messages : List ExtensionMessage) (beforeTs : Int) :
    Option (List Char) :=
  findPrecedingUserMessageAux beforeTs messages.reverse

/-- The qualifying condition of findPrecedingUserMessage: a user_feedback say
message with nonempty text, strictly before the checkpoint timestamp. -/
def QualifyingUserMessage (beforeTs : Int) (m : ExtensionMessage) : Prop :=
  m.ts < beforeTs ∧ m.type = "say" ∧ m.say = some "user_feedback" ∧
    ∃ t, m.text = some t ∧ t ≠ []

-- ============================================================================
-- manage_tabs tool validation (manageTabsTool.ts)
-- ============================================================================

/-- JavaScript truthiness of an optional string parameter: undefined and the
empty string are falsy. -/
def truthyStr : Option String → Bool
  | none => false
  | some s => !(s == "")

/-- The observable outcome of one manageTabsTool invocation: the value of
task.consecutiveMistakeCount afterwards, whether a validation error result
was pushed, and whether the action dispatch was reached. -/
structure ManageTabsOutcome where
  consecutiveMistakeCount : Nat
  pushedErrorResult : Bool
  actionPerformed : Bool
deriving DecidableEq, Repr

/-- The validation phase of manageTabsTool from manageTabsTool.ts.  A partial
block only re-asks and returns; a missing or unrecognised action, a missing
file and files for open, or a missing file for close each increment the
mistake counter and push an error without dispatching; otherwise the counter
is reset to 0 and the action branch runs. -/
def manageTabsStep (partialFlag : Bool) (action file files : Option String) (count : Nat) :
    ManageTabsOutcome :=
  if partialFlag then
    { consecutiveMistakeCount := count, pushedErrorResult := false, actionPerformed := false }
  else if truthyStr action = false ∨ (action ≠ some "open" ∧ action ≠ some "close") then
    { consecutiveMistakeCount := count + 1, pushedErrorResult := true, actionPerformed := false }
  else if action = some "open" ∧ truthyStr file = false ∧ truthyStr files = false then
    { consecutiveMistakeCount := count + 1, pushedErrorResult := true, actionPerformed := false }
  else if action = some "close" ∧ truthyStr file = false then
    { consecutiveMistakeCount := count + 1, pushedErrorResult := true, actionPerformed := false }
  else
    { consecutiveMistakeCount := 0, pushedErrorResult := false, actionPerformed := true }

/-- The three validation-error conditions of manageTabsTool. -/
def ManageTabsValidationError (action file files : Option String) : Prop :=
  (truthyStr action = false ∨ (action ≠ some "open" ∧ action ≠ some "close"))
  ∨ (action = some "open" ∧ truthyStr file = false ∧ truthyStr files = false)
  ∨ (action = some "close" ∧ truthyStr file = false)

instance (action file files : Option String) :
    Decidable (ManageTabsValidationError action file files) := by
  unfold ManageTabsValidationError
  infer_instance

-- ============================================================================
-- parseFileWithLine (manageTabsTool.ts) and a model of JavaScript parseInt
-- ============================================================================

/-- Whether a character is a hexadecimal digit. -/
def isHexDigit (c : Char) : Bool :=
  c.isDigit || (('a' ≤ c && c ≤ 'f') || ('A' ≤ c && c ≤ 'F'))

/-- Numeric value of a hexadecimal digit character. -/
def hexDigitVal (c : Char) : Nat :=
  if c.isDigit then c.toNat - 48
  else if 'a' ≤ c ∧ c ≤ 'f' then c.toNat - 87
  else c.toNat - 55

/-- Value of a decimal digit string. -/
def decValue (digits : List Char) : Nat :=
  digits.foldl (fun acc c => acc * 10 + (c.toNat - 48)) 0

/-- Value of a hexadecimal digit string. -/
def hexValue (digits : List Char) : Nat :=
  digits.foldl (fun acc c => acc * 16 + hexDigitVal c) 0

/-- JavaScript parseInt with no radix argument, on exact integers: skip
leading whitespace, read an optional sign, detect an 0x/0X prefix (hexadecimal
mode), read the longest prefix of digits of the selected base; no digits means
NaN, modelled as none.  (JavaScript returns a double and loses precision on
very long digit strings; the exact-integer model agrees with it on every
comparison against small bounds such as the "at least 1" test below.) -/
def jsParseInt (s : List Char) : Option Int :=
  let afterSpace := s.dropWhile Char.isWhitespace
  let signAndRest : Int × List Char :=
    match afterSpace with
    | '-' :: r => (-1, r)
    | '+' :: r => (1, r)
    | r => (1, r)
  let body : Bool × List Char :=
    match signAndRest.2 with
    | '0' :: 'x' :: r => (true, r)
    | '0' :: 'X' :: r => (true, r)
    | _ => (false, signAndRest.2)
  let digits :=
    if body.1 then body.2.takeWhile isHexDigit else body.2.takeWhile Char.isDigit
  if digits = [] then none
  else some (signAndRest.1 * (if body.1 then hexValue digits else decValue digits))

/-- The last index of a character in a list, starting the count at i; mirrors
String.prototype.lastIndexOf. -/
def lastIndexOfAux (c : Char) : List Char → Nat → Option Nat
  | [], _ => none
  | x :: xs, i =>
      match lastIndexOfAux c xs (i + 1) with
      | some j => some j
      | none => if x = c then some i else none

/-- filePath.lastIndexOf(c), as an Option instead of the -1 sentinel. -/
def lastIndexOf (c : Char) (s : List Char) : Option Nat :=
  lastIndexOfAux c s 0

/-- The result record of parseFileWithLine. -/
structure FileWithLine where
  path : List Char
  line : Option Int
deriving DecidableEq, Repr

/-- parseFileWithLine from manageTabsTool.ts: split on the last '#'; when the
suffix does not parseInt to a number at least 1, the whole input is the path
with no line. -/
def parseFileWithLine (filePath : List Char) : FileWithLine :=
  match lastIndexOf '#' filePath with
  | none => { path := filePath, line := none }
  | some hashIndex =>
      let pathPart := filePath.take hashIndex
      let linePart := filePath.drop (hashIndex + 1)
      match jsParseInt linePart with
      | none => { path := filePath, line := none }
      | some lineNumber =>
          if lineNumber < 1 then { path := filePath, line := none }
          else { path := pathPart, line := some lineNumber }

-- ============================================================================
-- Log reconciler (C2)
-- ============================================================================

/-- Modelled from the spec: the reconcileMessages function of
cli/src/state/atoms/extension.ts is not among the provided sources; only its
stale-partial guard is quoted in the feature-plan document.  A log entry
carries its sequence-timestamp key, its content length (the reconciliation
version of a streaming entry) and its streaming flag, following the spec's
Event and ReconciliationVersion descriptions. -/
structure LogEntry where
  sequenceTimestamp : Int
  contentLength : Nat
  streaming : Bool
deriving DecidableEq, Repr

/-- Modelled from the spec: per-key merge resolution of the Log Reconciler.
cur is the local entry for the key (none when the incoming entry is a pure
addition), ver the last recorded version for the key (content length observed
so far).  A finalized local entry rejects an incoming streaming entry unless
the incoming version is strictly greater than ver; a streaming local entry is
replaced only when the incoming version is at least the local one; otherwise
the incoming authoritative entry is accepted.  The recorded version is raised
to the content length of whatever entry is kept. -/
def mergeEntry (cur : Option LogEntry) (ver : Nat) (incoming : LogEntry) :
    Option LogEntry × Nat :=
  match cur with
  | none => (some incoming, max ver incoming.contentLength)
  | some l =>
      if l.streaming = false ∧ incoming.streaming = true then
        if incoming.contentLength ≤ ver then (some l, ver)
        else (some incoming, max ver incoming.contentLength)
      else if l.streaming = true then
        if incoming.contentLength < l.contentLength then (some l, ver)
        else (some incoming, max ver incoming.contentLength)
      else (some incoming, max ver incoming.contentLength)

/-- Modelled from the spec: folding a sequence of incoming entries for one key
through the per-key merge, in the order the pushes arrive. -/
def mergeFold (cur : Option LogEntry) (ver : Nat) : List LogEntry → Option LogEntry × Nat
  | [] => (cur, ver)
  | i :: is => mergeFold (mergeEntry cur ver i).1 (mergeEntry cur ver i).2 is

/-- A sample user-feedback message, used to instantiate theorems at concrete
inputs. -/
def sampleUserMessage : ExtensionMessage :=
  { ts := 1, type := "say", say := some "user_feedback", text := some "hi".toList }

/-- An earlier sample user-feedback message, used to check that the preview
comes from the most recent preceding user message, not an older one. -/
def earlierUserMessage : ExtensionMessage :=
  { ts := 0, type := "say", say := some "user_feedback", text := some "first".toList }

-- ============================================================================
-- Helper lemmas
-- ============================================================================

theorem navigateCheckpointUp_fields (checkpoints : List CheckpointInfo) (s : CheckpointState) :
    (navigateCheckpointUp checkpoints s).checkpointSelectionMode = s.checkpointSelectionMode ∧
    (navigateCheckpointUp checkpoints s).restoreTypeSelectionMode = s.restoreTypeSelectionMode ∧
    (navigateCheckpointUp checkpoints s).selectedRestoreTypeIndex = s.selectedRestoreTypeIndex ∧
    (navigateCheckpointUp checkpoints s).selectedCheckpoint = s.selectedCheckpoint := by
  unfold navigateCheckpointUp
  dsimp only
  split <;> exact ⟨rfl, rfl, rfl, rfl⟩

theorem navigateCheckpointDown_fields (checkpoints : List CheckpointInfo) (s : CheckpointState) :
    (navigateCheckpointDown checkpoints s).checkpointSelectionMode = s.checkpointSelectionMode ∧
    (navigateCheckpointDown checkpoints s).restoreTypeSelectionMode = s.restoreTypeSelectionMode ∧
    (navigateCheckpointDown checkpoints s).selectedRestoreTypeIndex = s.selectedRestoreTypeIndex ∧
    (navigateCheckpointDown checkpoints s).selectedCheckpoint = s.selectedCheckpoint := by
  unfold navigateCheckpointDown
  dsimp only
  split <;> exact ⟨rfl, rfl, rfl, rfl⟩

theorem navigateRestoreTypeUp_fields (s : CheckpointState) :
    (navigateRestoreTypeUp s).checkpointSelectionMode = s.checkpointSelectionMode ∧
    (navigateRestoreTypeUp s).restoreTypeSelectionMode = s.restoreTypeSelectionMode ∧
    (navigateRestoreTypeUp s).selectedCheckpoint = s.selectedCheckpoint :=
  ⟨rfl, rfl, rfl⟩

theorem navigateRestoreTypeDown_fields (s : CheckpointState) :
    (navigateRestoreTypeDown s).checkpointSelectionMode = s.checkpointSelectionMode ∧
    (navigateRestoreTypeDown s).restoreTypeSelectionMode = s.restoreTypeSelectionMode ∧
    (navigateRestoreTypeDown s).selectedCheckpoint = s.selectedCheckpoint :=
  ⟨rfl, rfl, rfl⟩

-- ============================================================================
-- Claim theorems
-- ============================================================================

/-- C1, counterexample: the claim states that a press is classified double
exactly when a previous press has been recorded (lastPressTime differs from
the never-pressed sentinel, realised as 0) and the window test passes.  The
code performs no sentinel check: with lastPressTime still at the sentinel 0
and a call at now = 300, recordEscPress classifies the press double although
no previous press was ever recorded, so the exactly-when fails. -/
theorem C1_sentinel_counterexample :
    (recordEscPress 0 300).1 = true ∧ specIsDouble 0 300 = false ∧
      ¬ ((recordEscPress 0 300).1 = specIsDouble 0 300) := by
  decide

/-- C1 (amended): a call to recordEscPress at time now is classified double
exactly when 0 < now - lastPressTime ≤ WINDOW (500 ms) — the code performs no
sentinel check — and lastPressTime is unconditionally set to now after every
call, double or not.  Whenever now > WINDOW (as holds for every real clock
reading), this classification coincides with the one the claim states,
sentinel conjunct included. -/
theorem C1_recordEscPress_amended (lastPress now : Int) :
    ((recordEscPress lastPress now).1 = true ↔
      (0 < now - lastPress ∧ now - lastPress ≤ DOUBLE_ESC_WINDOW_MS)) ∧
    (recordEscPress lastPress now).2 = now ∧
    (DOUBLE_ESC_WINDOW_MS < now →
      (recordEscPress lastPress now).1 = specIsDouble lastPress now) := by
  refine ⟨by simp [recordEscPress], rfl, ?_⟩
  intro h
  by_cases h0 : lastPress = 0
  · subst h0
    simp only [DOUBLE_ESC_WINDOW_MS] at h
    have hw : ¬ (now - 0 ≤ (500 : Int)) := by omega
    simp [recordEscPress, specIsDouble, DOUBLE_ESC_WINDOW_MS, hw]
    omega
  · simp [recordEscPress, specIsDouble, h0]

/-- C1 witness: the amended theorem at lastPress = 1000, now = 1200. -/
theorem C1_recordEscPress_amended_witness :
    ((recordEscPress 1000 1200).1 = true ↔
      (0 < (1200 : Int) - 1000 ∧ (1200 : Int) - 1000 ≤ DOUBLE_ESC_WINDOW_MS)) ∧
    (recordEscPress 1000 1200).2 = 1200 ∧
    (recordEscPress 1000 1200).1 = specIsDouble 1000 1200 := by
  have h := C1_recordEscPress_amended 1000 1200
  exact ⟨h.1, h.2.1, h.2.2 (by decide)⟩

/-- C5: with an empty checkpoint list, entering checkpoint selection is a
no-op: it returns false and leaves the whole state unchanged (in particular
neither selection mode becomes true, and the result does not depend on the
checkpoint cursor, which is never read). -/
theorem C5_empty_checkpoints_noop (checkpoints : List CheckpointInfo) (s : CheckpointState)
    (h : checkpoints.length = 0) :
    enterCheckpointSelectionMode checkpoints s = (false, s) ∧
    (enterCheckpointSelectionMode checkpoints s).2.checkpointSelectionMode =
      s.checkpointSelectionMode ∧
    (enterCheckpointSelectionMode checkpoints s).2.restoreTypeSelectionMode =
      s.restoreTypeSelectionMode := by
  have hnil : checkpoints = [] := List.eq_nil_of_length_eq_zero h
  subst hnil
  exact ⟨rfl, rfl, rfl⟩

/-- C5 witness: the theorem at the empty list and the initial state. -/
theorem C5_empty_checkpoints_noop_witness :
    enterCheckpointSelectionMode [] initialCheckpointState = (false, initialCheckpointState) :=
  (C5_empty_checkpoints_noop [] initialCheckpointState rfl).1

/-- C7: navigation wraps modulo the list length in both lists: moving up from
index 0 lands on the last index, moving down from the last index lands on 0,
and on a single-item list both directions leave the index unchanged at 0; the
same holds for the fixed 3-option restore-type list. -/
theorem C7_navigation_wraps (checkpoints : List CheckpointInfo) (s : CheckpointState)
    (hne : checkpoints ≠ []) :
    (s.selectedCheckpointIndex = 0 →
      (navigateCheckpointUp checkpoints s).selectedCheckpointIndex =
        (checkpoints.length : Int) - 1) ∧
    (s.selectedCheckpointIndex = (checkpoints.length : Int) - 1 →
      (navigateCheckpointDown checkpoints s).selectedCheckpointIndex = 0) ∧
    (checkpoints.length = 1 → s.selectedCheckpointIndex = 0 →
      (navigateCheckpointUp checkpoints s).selectedCheckpointIndex =
          s.selectedCheckpointIndex ∧
        (navigateCheckpointDown checkpoints s).selectedCheckpointIndex =
          s.selectedCheckpointIndex) ∧
    (s.selectedRestoreTypeIndex = 0 →
      (navigateRestoreTypeUp s).selectedRestoreTypeIndex =
        (RESTORE_TYPE_OPTIONS.length : Int) - 1) ∧
    (s.selectedRestoreTypeIndex = (RESTORE_TYPE_OPTIONS.length : Int) - 1 →
      (navigateRestoreTypeDown s).selectedRestoreTypeIndex = 0) := by
  have hpos : 0 < checkpoints.length := List.length_pos.mpr hne
  have hiz : ¬ ((checkpoints.length : Int) = 0) := by
    intro hz
    omega
  refine ⟨?_, ?_, ?_, ?_, ?_⟩
  · intro h0
    simp [navigateCheckpointUp, hiz, h0]
  · intro hlast
    simp only [navigateCheckpointDown, if_neg hiz]
    rw [hlast]
    simp
  · intro hone h0
    constructor
    · simp [navigateCheckpointUp, hiz, h0, hone]
    · simp only [navigateCheckpointDown, if_neg hiz]
      rw [h0, hone]
      decide
  · intro h0
    simp [navigateRestoreTypeUp, h0, RESTORE_TYPE_OPTIONS]
  · intro hlast
    simp only [navigateRestoreTypeDown]
    rw [hlast]
    decide

/-- C7 witness: the theorem on a one-element checkpoint list at cursor 0, and
on the restore-type list at cursors 0 and 2. -/
theorem C7_navigation_wraps_witness :
    (navigateCheckpointUp [sampleCheckpoint] initialCheckpointState).selectedCheckpointIndex =
        ([sampleCheckpoint].length : Int) - 1 ∧
    (navigateCheckpointDown [sampleCheckpoint] initialCheckpointState).selectedCheckpointIndex
        = 0 ∧
    (navigateRestoreTypeUp initialCheckpointState).selectedRestoreTypeIndex =
      (RESTORE_TYPE_OPTIONS.length : Int) - 1 := by
  have h := C7_navigation_wraps [sampleCheckpoint] initialCheckpointState
    (List.cons_ne_nil _ _)
  exact ⟨h.1 rfl, h.2.1 (by decide), h.2.2.2.1 rfl⟩

/-- C9: for a non-partial manage_tabs invocation, each validation error
(missing or unrecognised action, missing file and files for open, or missing
file for close) increments the consecutive-mistake counter and pushes an
error result without dispatching the action; when validation succeeds the
counter is reset to 0 and the action runs; and the counter ends at 0 only
when validation succeeded. -/
theorem C9_manage_tabs_validation (action file files : Option String) (count : Nat) :
    (ManageTabsValidationError action file files →
        manageTabsStep false action file files count =
          { consecutiveMistakeCount := count + 1
          , pushedErrorResult := true
          , actionPerformed := false }) ∧
    (¬ ManageTabsValidationError action file files →
        manageTabsStep false action file files count =
          { consecutiveMistakeCount := 0
          , pushedErrorResult := false
          , actionPerformed := true }) ∧
    ((manageTabsStep false action file files count).consecutiveMistakeCount = 0 →
        ¬ ManageTabsValidationError action file files) := by
  by_cases h1 : truthyStr action = false ∨ (action ≠ some "open" ∧ action ≠ some "close")
  · simp [manageTabsStep, ManageTabsValidationError, h1]
  · by_cases h2 : action = some "open" ∧ truthyStr file = false ∧ truthyStr files = false
    · simp [manageTabsStep, ManageTabsValidationError, h1, h2]
    · by_cases h3 : action = some "close" ∧ truthyStr file = false
      · simp [manageTabsStep, ManageTabsValidationError, h1, h2, h3]
      · simp [manageTabsStep, ManageTabsValidationError, h1, h2, h3]

/-- One step preserves the Idle invariant that the restore-type cursor is 0. -/
theorem step_preserves_idle_scope_cursor {s t : CheckpointState} (hs : Step s t)
    (ih : s.checkpointSelectionMode = false → s.restoreTypeSelectionMode = false →
      s.selectedRestoreTypeIndex = 0)
    (hc : t.checkpointSelectionMode = false) (hr : t.restoreTypeSelectionMode = false) :
    t.selectedRestoreTypeIndex = 0 := by
  cases hs with
  | enter cps _ hc0 hr0 =>
      by_cases hlen : cps.length > 0
      · simp [enterCheckpointSelectionMode, hlen] at hc
      · simp only [enterCheckpointSelectionMode, if_neg hlen] at hc hr ⊢
        exact ih hc hr
  | cancel => rfl
  | confirm cps _ hcs =>
      cases hcur : currentSelectedCheckpoint cps s with
      | none =>
          simp only [confirmCheckpointSelection, hcur] at hc hr ⊢
          exact ih hc hr
      | some cp => simp [confirmCheckpointSelection, hcur] at hr
  | back _ hb => simp [backToCheckpointSelection] at hc
  | navUp cps _ hn =>
      rw [(navigateCheckpointUp_fields cps s).1] at hc
      simp [hn] at hc
  | navDown cps _ hn =>
      rw [(navigateCheckpointDown_fields cps s).1] at hc
      simp [hn] at hc
  | navScopeUp _ hn =>
      simp only [navigateRestoreTypeUp] at hr
      simp [hn] at hr
  | navScopeDown _ hn =>
      simp only [navigateRestoreTypeDown] at hr
      simp [hn] at hr
  | escPress now => exact ih hc hr
  | escReset => exact ih hc hr

/-- In every reachable state with both selection modes off (the Idle state),
the restore-type cursor is 0: every path back to Idle resets it. -/
theorem reachable_idle_scope_cursor {s : CheckpointState} (h : Reachable s) :
    s.checkpointSelectionMode = false → s.restoreTypeSelectionMode = false →
    s.selectedRestoreTypeIndex = 0 := by
  induction h with
  | init => intro _ _; rfl
  | step hprev hs ih =>
      intro hc hr
      exact step_preserves_idle_scope_cursor hs ih hc hr

/-- C3: the cancel transition from ChoosingScope back to ChoosingCheckpoint
resets the restore-type cursor to 0 rather than keeping its previous value;
and over the machine as a whole, any step that newly enters ChoosingScope
leaves scopeCursor at 0, so re-selection starts fresh. -/
theorem C3_back_resets_scope_cursor :
    (∀ s : CheckpointState,
        (backToCheckpointSelection s).selectedRestoreTypeIndex = 0 ∧
        (backToCheckpointSelection s).checkpointSelectionMode = true ∧
        (backToCheckpointSelection s).restoreTypeSelectionMode = false) ∧
    (∀ s t : CheckpointState, Step s t →
        s.restoreTypeSelectionMode = false → t.restoreTypeSelectionMode = true →
        t.selectedRestoreTypeIndex = 0) := by
  refine ⟨fun s => ⟨rfl, rfl, rfl⟩, ?_⟩
  intro s t hst hf ht
  cases hst with
  | enter cps _ hc0 hr0 =>
      by_cases hlen : cps.length > 0
      · simp [enterCheckpointSelectionMode, hlen] at ht
      · simp only [enterCheckpointSelectionMode, if_neg hlen] at ht
        simp [hf] at ht
  | cancel => simp [exitCheckpointSelectionMode] at ht
  | confirm cps _ hcs =>
      cases hcur : currentSelectedCheckpoint cps s with
      | none =>
          simp only [confirmCheckpointSelection, hcur] at ht
          simp [hf] at ht
      | some cp => simp [confirmCheckpointSelection, hcur]
  | back _ hb => simp [hf] at hb
  | navUp cps _ hn =>
      rw [(navigateCheckpointUp_fields cps s).2.1] at ht
      simp [hf] at ht
  | navDown cps _ hn =>
      rw [(navigateCheckpointDown_fields cps s).2.1] at ht
      simp [hf] at ht
  | navScopeUp _ hn => simp [hf] at hn
  | navScopeDown _ hn => simp [hf] at hn
  | escPress now =>
      simp only [recordEscPressState] at ht
      simp [hf] at ht
  | escReset =>
      simp only [resetEscPressTimerState] at ht
      simp [hf] at ht

/-- C3 witness: the back transition on a concrete state, and the
next-entry part on the concrete confirm step from checkpoint selection. -/
theorem C3_back_resets_scope_cursor_witness :
    (backToCheckpointSelection sampleChoosingState).selectedRestoreTypeIndex = 0 ∧
    (confirmCheckpointSelection [sampleCheckpoint] sampleChoosingState).2.selectedRestoreTypeIndex
      = 0 := by
  refine ⟨(C3_back_resets_scope_cursor.1 sampleChoosingState).1, ?_⟩
  exact C3_back_resets_scope_cursor.2 sampleChoosingState
    (confirmCheckpointSelection [sampleCheckpoint] sampleChoosingState).2
    (Step.confirm [sampleCheckpoint] sampleChoosingState rfl) rfl (by decide)

/-- C4: from any reachable Idle state, a successful entry into checkpoint
selection fully resets the session: it returns true, both cursors are 0, the
pending checkpoint is cleared, and the machine is in ChoosingCheckpoint. -/
theorem C4_enter_fully_resets (s : CheckpointState) (checkpoints : List CheckpointInfo)
    (hreach : Reachable s)
    (hc : s.checkpointSelectionMode = false) (hr : s.restoreTypeSelectionMode = false)
    (hne : checkpoints ≠ []) :
    (enterCheckpointSelectionMode checkpoints s).1 = true ∧
    (enterCheckpointSelectionMode checkpoints s).2.selectedCheckpointIndex = 0 ∧
    (enterCheckpointSelectionMode checkpoints s).2.selectedRestoreTypeIndex = 0 ∧
    (enterCheckpointSelectionMode checkpoints s).2.selectedCheckpoint = none ∧
    (enterCheckpointSelectionMode checkpoints s).2.checkpointSelectionMode = true ∧
    (enterCheckpointSelectionMode checkpoints s).2.restoreTypeSelectionMode = false := by
  have hlen : checkpoints.length > 0 := List.length_pos.mpr hne
  have hscope := reachable_idle_scope_cursor hreach hc hr
  simp [enterCheckpointSelectionMode, hlen, hscope]

/-- C4 witness: the theorem at the initial state and a one-element list. -/
theorem C4_enter_fully_resets_witness :
    (enterCheckpointSelectionMode [sampleCheckpoint] initialCheckpointState).1 = true ∧
    (enterCheckpointSelectionMode [sampleCheckpoint]
      initialCheckpointState).2.selectedCheckpointIndex = 0 ∧
    (enterCheckpointSelectionMode [sampleCheckpoint]
      initialCheckpointState).2.selectedRestoreTypeIndex = 0 ∧
    (enterCheckpointSelectionMode [sampleCheckpoint]
      initialCheckpointState).2.selectedCheckpoint = none ∧
    (enterCheckpointSelectionMode [sampleCheckpoint]
      initialCheckpointState).2.checkpointSelectionMode = true ∧
    (enterCheckpointSelectionMode [sampleCheckpoint]
      initialCheckpointState).2.restoreTypeSelectionMode = false :=
  C4_enter_fully_resets initialCheckpointState [sampleCheckpoint] Reachable.init rfl rfl
    (List.cons_ne_nil _ _)

/-- C6: with a non-empty checkpoint list and an in-range cursor, confirm
succeeds, moves to restore-type selection with scopeCursor 0, and freezes the
pending checkpoint to exactly the record at the cursor index; the frozen
value is a copy in the state, which navigation, back transitions and any
later mutation of the derived checkpoint list leave unchanged. -/
theorem C6_confirm_freezes (checkpoints : List CheckpointInfo) (s : CheckpointState)
    (h0 : 0 ≤ s.selectedCheckpointIndex)
    (hlt : s.selectedCheckpointIndex < (checkpoints.length : Int)) :
    (confirmCheckpointSelection checkpoints s).1 = true ∧
    (confirmCheckpointSelection checkpoints s).2.selectedCheckpoint =
      checkpoints.get? s.selectedCheckpointIndex.toNat ∧
    (checkpoints.get? s.selectedCheckpointIndex.toNat).isSome = true ∧
    (confirmCheckpointSelection checkpoints s).2.checkpointSelectionMode = false ∧
    (confirmCheckpointSelection checkpoints s).2.restoreTypeSelectionMode = true ∧
    (confirmCheckpointSelection checkpoints s).2.selectedRestoreTypeIndex = 0 ∧
    (∀ (cps' : List CheckpointInfo) (t : CheckpointState),
        (navigateCheckpointUp cps' t).selectedCheckpoint = t.selectedCheckpoint) ∧
    (∀ (cps' : List CheckpointInfo) (t : CheckpointState),
        (navigateCheckpointDown cps' t).selectedCheckpoint = t.selectedCheckpoint) ∧
    (∀ t : CheckpointState,
        (navigateRestoreTypeUp t).selectedCheckpoint = t.selectedCheckpoint) ∧
    (∀ t : CheckpointState,
        (navigateRestoreTypeDown t).selectedCheckpoint = t.selectedCheckpoint) ∧
    (∀ t : CheckpointState,
        (backToCheckpointSelection t).selectedCheckpoint = t.selectedCheckpoint) := by
  have htoNat : s.selectedCheckpointIndex.toNat < checkpoints.length := by omega
  obtain ⟨cp, hcp⟩ : ∃ cp, checkpoints.get? s.selectedCheckpointIndex.toNat = some cp :=
    ⟨_, List.get?_eq_get htoNat⟩
  have hcp' : checkpoints[s.selectedCheckpointIndex.toNat]? = some cp := by
    rw [← List.get?_eq_getElem?]
    exact hcp
  have hcur : currentSelectedCheckpoint checkpoints s = some cp := by
    unfold currentSelectedCheckpoint
    rw [if_neg (by omega)]
    exact hcp
  refine ⟨?_, ?_, ?_, ?_, ?_, ?_,
      fun cps' t => (navigateCheckpointUp_fields cps' t).2.2.2,
      fun cps' t => (navigateCheckpointDown_fields cps' t).2.2.2,
      fun t => (navigateRestoreTypeUp_fields t).2.2,
      fun t => (navigateRestoreTypeDown_fields t).2.2,
      fun t => rfl⟩ <;>
    simp [confirmCheckpointSelection, hcur, hcp, hcp']

/-- C6 witness: confirming on a one-element list at cursor 0 freezes that
element. -/
theorem C6_confirm_freezes_witness :
    (confirmCheckpointSelection [sampleCheckpoint] sampleChoosingState).1 = true ∧
    (confirmCheckpointSelection [sampleCheckpoint] sampleChoosingState).2.selectedCheckpoint =
      some sampleCheckpoint := by
  have h := C6_confirm_freezes [sampleCheckpoint] sampleChoosingState (by decide) (by decide)
  exact ⟨h.1, by rw [h.2.1]; decide⟩

/-- C9 witness: a missing action increments the counter from 3 to 4 with an
error pushed and no dispatch; a valid open with a file resets it to 0. -/
theorem C9_manage_tabs_validation_witness :
    manageTabsStep false none none none 3 =
      { consecutiveMistakeCount := 4, pushedErrorResult := true, actionPerformed := false } ∧
    manageTabsStep false (some "open") (some "a.ts") none 3 =
      { consecutiveMistakeCount := 0, pushedErrorResult := false, actionPerformed := true } :=
  ⟨(C9_manage_tabs_validation none none none 3).1 (Or.inl (Or.inl rfl)),
   (C9_manage_tabs_validation (some "open") (some "a.ts") none 3).2.1 (by decide)⟩

theorem truncateText_length_le (t : List Char) : (truncateText t 50).length ≤ 50 := by
  unfold truncateText
  split
  · assumption
  · simp only [List.length_append, List.length_take, List.length_cons, List.length_nil]
    omega

theorem truncateText_eq_of_le {t : List Char} (h : t.length ≤ 50) : truncateText t 50 = t := by
  unfold truncateText
  rw [if_pos h]

theorem truncateText_eq_of_gt {t : List Char} (h : 50 < t.length) :
    truncateText t 50 = t.take 47 ++ ['.', '.', '.'] := by
  unfold truncateText
  rw [if_neg (by omega)]

theorem findPrecedingUserMessageAux_eq_none {beforeTs : Int} {l : List ExtensionMessage}
    (h : ∀ m ∈ l, ¬ QualifyingUserMessage beforeTs m) :
    findPrecedingUserMessageAux beforeTs l = none := by
  induction l with
  | nil => rfl
  | cons msg rest ih =>
      have hmsg := h msg (List.mem_cons_self msg rest)
      have hrest : ∀ m ∈ rest, ¬ QualifyingUserMessage beforeTs m :=
        fun m hm => h m (List.mem_cons_of_mem msg hm)
      unfold findPrecedingUserMessageAux
      by_cases hts : beforeTs ≤ msg.ts
      · rw [if_pos hts]
        exact ih hrest
      · rw [if_neg hts]
        cases htext : msg.text with
        | none => exact ih hrest
        | some t =>
            dsimp only
            rw [if_neg]
            · exact ih hrest
            · rintro ⟨h1, h2, h3⟩
              exact hmsg ⟨by omega, h1, h2, t, htext, h3⟩

theorem findPrecedingUserMessageAux_eq_some {beforeTs : Int} {l : List ExtensionMessage}
    {p : List Char} (h : findPrecedingUserMessageAux beforeTs l = some p) :
    ∃ m ∈ l, ∃ t, m.ts < beforeTs ∧ m.type = "say" ∧ m.say = some "user_feedback" ∧
      m.text = some t ∧ t ≠ [] ∧ p = truncateText (trimChars t) 50 := by
  induction l with
  | nil => simp [findPrecedingUserMessageAux] at h
  | cons msg rest ih =>
      unfold findPrecedingUserMessageAux at h
      by_cases hts : beforeTs ≤ msg.ts
      · rw [if_pos hts] at h
        obtain ⟨m, hm, hrest⟩ := ih h
        exact ⟨m, List.mem_cons_of_mem msg hm, hrest⟩
      · rw [if_neg hts] at h
        cases htext : msg.text with
        | none =>
            rw [htext] at h
            obtain ⟨m, hm, hrest⟩ := ih h
            exact ⟨m, List.mem_cons_of_mem msg hm, hrest⟩
        | some t =>
            rw [htext] at h
            dsimp only at h
            by_cases hcond : msg.type = "say" ∧ msg.say = some "user_feedback" ∧ t ≠ []
            · rw [if_pos hcond] at h
              refine ⟨msg, List.mem_cons_self msg rest, t, by omega, hcond.1, hcond.2.1,
                htext, hcond.2.2, ?_⟩
              exact (Option.some.inj h).symm
            · rw [if_neg hcond] at h
              obtain ⟨m, hm, hrest⟩ := ih h
              exact ⟨m, List.mem_cons_of_mem msg hm, hrest⟩

/-- Iterating past a message that does not qualify changes nothing. -/
theorem findPrecedingUserMessageAux_cons_skip {beforeTs : Int} {msg : ExtensionMessage}
    (h : ¬ QualifyingUserMessage beforeTs msg) (rest : List ExtensionMessage) :
    findPrecedingUserMessageAux beforeTs (msg :: rest) =
      findPrecedingUserMessageAux beforeTs rest := by
  have heq : findPrecedingUserMessageAux beforeTs (msg :: rest) =
      if beforeTs ≤ msg.ts then findPrecedingUserMessageAux beforeTs rest
      else
        match msg.text with
        | some t =>
            if msg.type = "say" ∧ msg.say = some "user_feedback" ∧ t ≠ [] then
              some (truncateText (trimChars t) 50)
            else findPrecedingUserMessageAux beforeTs rest
        | none => findPrecedingUserMessageAux beforeTs rest := rfl
  rw [heq]
  by_cases hts : beforeTs ≤ msg.ts
  · rw [if_pos hts]
  · rw [if_neg hts]
    cases htext : msg.text with
    | none => rfl
    | some t =>
        dsimp only
        rw [if_neg]
        rintro ⟨h1, h2, h3⟩
        exact h ⟨by omega, h1, h2, t, htext, h3⟩

/-- A qualifying message at the head of the iteration is the one returned. -/
theorem findPrecedingUserMessageAux_cons_hit {beforeTs : Int} {msg : ExtensionMessage}
    {t : List Char} (hts : msg.ts < beforeTs) (hty : msg.type = "say")
    (hsay : msg.say = some "user_feedback") (htext : msg.text = some t) (hne : t ≠ [])
    (rest : List ExtensionMessage) :
    findPrecedingUserMessageAux beforeTs (msg :: rest) =
      some (truncateText (trimChars t) 50) := by
  have heq : findPrecedingUserMessageAux beforeTs (msg :: rest) =
      if beforeTs ≤ msg.ts then findPrecedingUserMessageAux beforeTs rest
      else
        match msg.text with
        | some t =>
            if msg.type = "say" ∧ msg.say = some "user_feedback" ∧ t ≠ [] then
              some (truncateText (trimChars t) 50)
            else findPrecedingUserMessageAux beforeTs rest
        | none => findPrecedingUserMessageAux beforeTs rest := rfl
  rw [heq, if_neg (by omega), htext]
  dsimp only
  rw [if_pos ⟨hty, hsay, hne⟩]

/-- A block of non-qualifying messages at the front of the iteration is
skipped wholesale. -/
theorem findPrecedingUserMessageAux_append_skip {beforeTs : Int}
    {nq : List ExtensionMessage} (h : ∀ x ∈ nq, ¬ QualifyingUserMessage beforeTs x)
    (l : List ExtensionMessage) :
    findPrecedingUserMessageAux beforeTs (nq ++ l) =
      findPrecedingUserMessageAux beforeTs l := by
  induction nq with
  | nil => rfl
  | cons msg rest ih =>
      rw [List.cons_append,
        findPrecedingUserMessageAux_cons_skip (h msg (List.mem_cons_self msg rest))]
      exact ih (fun x hx => h x (List.mem_cons_of_mem msg hx))

/-- When some message in the iteration qualifies, the iteration produces a
preview. -/
theorem findPrecedingUserMessageAux_isSome {beforeTs : Int} {l : List ExtensionMessage}
    (h : ∃ m ∈ l, QualifyingUserMessage beforeTs m) :
    ∃ p, findPrecedingUserMessageAux beforeTs l = some p := by
  induction l with
  | nil =>
      obtain ⟨m, hm, _⟩ := h
      cases hm
  | cons msg rest ih =>
      by_cases hq : QualifyingUserMessage beforeTs msg
      · obtain ⟨h1, h2, h3, t, htext, hne⟩ := hq
        exact ⟨_, findPrecedingUserMessageAux_cons_hit h1 h2 h3 htext hne rest⟩
      · rw [findPrecedingUserMessageAux_cons_skip hq rest]
        apply ih
        obtain ⟨m, hm, hQm⟩ := h
        rcases List.mem_cons.mp hm with he | hmem
        · exact absurd (he ▸ hQm) hq
        · exact ⟨m, hmem, hQm⟩

/-- C8: a checkpoint timestamp with no qualifying preceding user message
(user_feedback say message with text, strictly earlier) yields none; whenever
such a message exists, a preview is produced, and it is exactly the trimmed
text of the most recent one — the qualifying message after which no later
message qualifies — truncated to the 50-character display bound: returned
verbatim when it fits and cut to 47 characters plus an ellipsis exactly when
the trimmed text exceeds the bound, so the preview never exceeds 50
characters. -/
theorem C8_preceding_user_message_preview (messages : List ExtensionMessage) (beforeTs : Int) :
    ((∀ m ∈ messages, ¬ QualifyingUserMessage beforeTs m) →
        findPrecedingUserMessage messages beforeTs = none) ∧
    ((∃ m ∈ messages, QualifyingUserMessage beforeTs m) →
        ∃ p, findPrecedingUserMessage messages beforeTs = some p) ∧
    (∀ (a b : List ExtensionMessage) (m : ExtensionMessage) (t : List Char),
        messages = a ++ m :: b →
        m.ts < beforeTs → m.type = "say" → m.say = some "user_feedback" →
        m.text = some t → t ≠ [] →
        (∀ x ∈ b, ¬ QualifyingUserMessage beforeTs x) →
        findPrecedingUserMessage messages beforeTs =
          some (truncateText (trimChars t) 50)) ∧
    (∀ p, findPrecedingUserMessage messages beforeTs = some p →
        p.length ≤ 50 ∧
        ∃ m ∈ messages, ∃ t, m.ts < beforeTs ∧ m.type = "say" ∧
          m.say = some "user_feedback" ∧ m.text = some t ∧ t ≠ [] ∧
          p = truncateText (trimChars t) 50 ∧
          ((trimChars t).length ≤ 50 → p = trimChars t) ∧
          (50 < (trimChars t).length → p = (trimChars t).take 47 ++ ['.', '.', '.'])) := by
  refine ⟨?_, ?_, ?_, ?_⟩
  · intro h
    exact findPrecedingUserMessageAux_eq_none
      (fun m hm => h m (List.mem_reverse.mp hm))
  · intro h
    obtain ⟨m, hm, hQm⟩ := h
    exact findPrecedingUserMessageAux_isSome ⟨m, List.mem_reverse.mpr hm, hQm⟩
  · intro a b m t hsplit h1 h2 h3 h4 h5 hb
    subst hsplit
    unfold findPrecedingUserMessage
    have hrev : (a ++ m :: b).reverse = b.reverse ++ m :: a.reverse := by
      simp
    rw [hrev,
      findPrecedingUserMessageAux_append_skip
        (fun x hx => hb x (List.mem_reverse.mp hx)),
      findPrecedingUserMessageAux_cons_hit h1 h2 h3 h4 h5]
  · intro p hp
    obtain ⟨m, hm, t, h1, h2, h3, h4, h5, h6⟩ := findPrecedingUserMessageAux_eq_some hp
    refine ⟨h6 ▸ truncateText_length_le _, m, List.mem_reverse.mp hm, t,
      h1, h2, h3, h4, h5, h6, ?_, ?_⟩
    · intro hle
      rw [h6, truncateText_eq_of_le hle]
    · intro hgt
      rw [h6, truncateText_eq_of_gt hgt]

/-- C8 witness: the empty log yields no preview; on a log holding an older
and a newer qualifying user message, a preview is produced and it is the
newer message's short text unchanged, within the bound. -/
theorem C8_preceding_user_message_preview_witness :
    findPrecedingUserMessage [] 10 = none ∧
    findPrecedingUserMessage [earlierUserMessage, sampleUserMessage] 10 =
      some ("hi".toList) ∧
    ("hi".toList).length ≤ 50 := by
  have h0 := (C8_preceding_user_message_preview [] 10).1 (by intro m hm; simp at hm)
  have hpin := (C8_preceding_user_message_preview
      [earlierUserMessage, sampleUserMessage] 10).2.2.1
    [earlierUserMessage] [] sampleUserMessage ("hi".toList)
    rfl (by decide) rfl rfl rfl (by decide) (by intro x hx; cases hx)
  have hbound := (C8_preceding_user_message_preview
      [earlierUserMessage, sampleUserMessage] 10).2.2.2
    (truncateText (trimChars ("hi".toList)) 50) hpin
  refine ⟨h0, ?_, ?_⟩
  · rw [hpin]
    decide
  · have : truncateText (trimChars ("hi".toList)) 50 = "hi".toList := by decide
    exact this ▸ hbound.1

theorem lastIndexOfAux_eq_none {c : Char} {l : List Char} (h : c ∉ l) (i : Nat) :
    lastIndexOfAux c l i = none := by
  induction l generalizing i with
  | nil => rfl
  | cons x xs ih =>
      have hx : ¬ (x = c) := fun he => h (he ▸ List.mem_cons_self x xs)
      have hxs : c ∉ xs := fun hm => h (List.mem_cons_of_mem x hm)
      unfold lastIndexOfAux
      rw [ih hxs, if_neg hx]

theorem lastIndexOfAux_append {p q : List Char} (hq : '#' ∉ q) (i : Nat) :
    lastIndexOfAux '#' (p ++ '#' :: q) i = some (i + p.length) := by
  induction p generalizing i with
  | nil =>
      simp only [List.nil_append]
      unfold lastIndexOfAux
      rw [lastIndexOfAux_eq_none hq]
      simp
  | cons x xs ih =>
      simp only [List.cons_append]
      unfold lastIndexOfAux
      rw [ih (i + 1)]
      simp only [List.length_cons, Option.some.injEq]
      omega

theorem lastIndexOf_eq_none {s : List Char} (h : '#' ∉ s) : lastIndexOf '#' s = none :=
  lastIndexOfAux_eq_none h 0

theorem lastIndexOf_append {p q : List Char} (hq : '#' ∉ q) :
    lastIndexOf '#' (p ++ '#' :: q) = some p.length := by
  unfold lastIndexOf
  rw [lastIndexOfAux_append hq 0]
  simp

/-- C10: parseFileWithLine never yields a line number below 1; an input
without '#', or whose part after the last '#' does not parse via parseInt to
an integer at least 1, is returned whole as the path with no line; otherwise
the path is the prefix before the last '#' and the line is the parsed
integer. -/
theorem C10_parseFileWithLine (s : List Char) :
    (∀ n, (parseFileWithLine s).line = some n → 1 ≤ n) ∧
    ('#' ∉ s → parseFileWithLine s = { path := s, line := none }) ∧
    (∀ p q : List Char, s = p ++ '#' :: q → '#' ∉ q →
        parseFileWithLine s =
          match jsParseInt q with
          | none => { path := s, line := none }
          | some n =>
              if n < 1 then { path := s, line := none }
              else { path := p, line := some n }) := by
  refine ⟨?_, ?_, ?_⟩
  · intro n hn
    unfold parseFileWithLine at hn
    cases hidx : lastIndexOf '#' s with
    | none => rw [hidx] at hn; simp at hn
    | some hashIndex =>
        rw [hidx] at hn
        dsimp only at hn
        cases hparse : jsParseInt (s.drop (hashIndex + 1)) with
        | none => rw [hparse] at hn; simp at hn
        | some m =>
            rw [hparse] at hn
            dsimp only at hn
            by_cases hlt : m < 1
            · rw [if_pos hlt] at hn; simp at hn
            · rw [if_neg hlt] at hn
              simp only at hn
              have hm : m = n := Option.some.inj hn
              omega
  · intro h
    unfold parseFileWithLine
    rw [lastIndexOf_eq_none h]
  · intro p q hs hq
    subst hs
    unfold parseFileWithLine
    rw [lastIndexOf_append hq]
    dsimp only
    have htake : (p ++ '#' :: q).take p.length = p := by
      rw [List.take_left]
    have hdrop : (p ++ '#' :: q).drop (p.length + 1) = q := by
      have h1 : p ++ '#' :: q = (p ++ ['#']) ++ q := by simp
      have h2 : (p ++ ['#']).length = p.length + 1 := by simp
      rw [h1, ← h2, List.drop_left]
    rw [htake, hdrop]

/-- C10 witness: the theorem on the concrete inputs of the repository's own
tests. -/
theorem C10_parseFileWithLine_witness :
    (1 ≤ (45 : Int)) ∧
    parseFileWithLine ("src/test.js".toList) = { path := "src/test.js".toList, line := none } ∧
    parseFileWithLine ("src/test.js#45".toList) =
      { path := "src/test.js".toList, line := some 45 } := by
  have h45 := C10_parseFileWithLine ("src/test.js#45".toList)
  have hplain := C10_parseFileWithLine ("src/test.js".toList)
  refine ⟨h45.1 45 (by decide), hplain.2.1 (by decide), ?_⟩
  have hsplit := h45.2.2 ("src/test.js".toList) ("45".toList) (by decide) (by decide)
  rw [hsplit]
  decide

/-- A single merge step with a streaming incoming entry never shrinks the
local entry, and keeps the recorded version at least the kept content
length. -/
theorem mergeEntry_no_shrink (l : LogEntry) (ver : Nat) (incoming : LogEntry)
    (hver : l.contentLength ≤ ver) (hinc : incoming.streaming = true) :
    ∃ e, (mergeEntry (some l) ver incoming).1 = some e ∧
      l.contentLength ≤ e.contentLength ∧
      e.contentLength ≤ (mergeEntry (some l) ver incoming).2 := by
  unfold mergeEntry
  dsimp only
  by_cases hl : l.streaming = false
  · rw [if_pos ⟨hl, hinc⟩]
    by_cases hle : incoming.contentLength ≤ ver
    · rw [if_pos hle]
      exact ⟨l, rfl, le_refl _, hver⟩
    · rw [if_neg hle]
      exact ⟨incoming, rfl, by omega, le_max_right _ _⟩
  · have hl' : l.streaming = true := by
      cases hb : l.streaming
      · exact absurd hb hl
      · rfl
    rw [if_neg (fun hand => hl hand.1), if_pos hl']
    by_cases hlt : incoming.contentLength < l.contentLength
    · rw [if_pos hlt]
      exact ⟨l, rfl, le_refl _, hver⟩
    · rw [if_neg hlt]
      exact ⟨incoming, rfl, by omega, le_max_right _ _⟩

/-- Folding any sequence of streaming pushes never shrinks the local entry. -/
theorem mergeFold_no_shrink (pushes : List LogEntry) :
    ∀ (l : LogEntry) (ver : Nat), (∀ i ∈ pushes, i.streaming = true) →
      l.contentLength ≤ ver →
      ∃ e, (mergeFold (some l) ver pushes).1 = some e ∧
        l.contentLength ≤ e.contentLength ∧
        e.contentLength ≤ (mergeFold (some l) ver pushes).2 := by
  induction pushes with
  | nil => exact fun l ver _ hv => ⟨l, rfl, le_refl _, hv⟩
  | cons i is ih =>
      intro l ver hall hv
      obtain ⟨e, he, hle, hev⟩ :=
        mergeEntry_no_shrink l ver i hv (hall i (List.mem_cons_self i is))
      obtain ⟨f, hf, hlf, hfv⟩ :=
        ih e (mergeEntry (some l) ver i).2 (fun x hx => hall x (List.mem_cons_of_mem i hx)) hev
      refine ⟨f, ?_, le_trans hle hlf, ?_⟩
      · unfold mergeFold
        rw [he]
        exact hf
      · unfold mergeFold
        rw [he]
        exact hfv

/-- C2: in the per-key merge of the log reconciler, a finalized local entry
rejects an incoming streaming entry whose version (content length) is not
strictly greater than the last recorded version for that key, and accepts it
otherwise; a streaming local entry is never rolled back to a shorter state by
any single incoming entry; and under any sequence of streaming pushes, in any
order, the entry held for the key never shrinks below the length already
observed. -/
theorem C2_reconciliation_stale_guard (l incoming : LogEntry) (ver : Nat) :
    (l.streaming = false → incoming.streaming = true → incoming.contentLength ≤ ver →
        mergeEntry (some l) ver incoming = (some l, ver)) ∧
    (l.streaming = false → incoming.streaming = true → ver < incoming.contentLength →
        (mergeEntry (some l) ver incoming).1 = some incoming) ∧
    (incoming.streaming = true → l.contentLength ≤ ver →
        ∃ e, (mergeEntry (some l) ver incoming).1 = some e ∧
          l.contentLength ≤ e.contentLength) ∧
    (l.streaming = true →
        ∃ e, (mergeEntry (some l) ver incoming).1 = some e ∧
          l.contentLength ≤ e.contentLength) ∧
    (∀ pushes : List LogEntry, (∀ i ∈ pushes, i.streaming = true) →
        l.contentLength ≤ ver →
        ∃ e, (mergeFold (some l) ver pushes).1 = some e ∧
          l.contentLength ≤ e.contentLength) := by
  refine ⟨?_, ?_, ?_, ?_, ?_⟩
  · intro hl hinc hle
    unfold mergeEntry
    dsimp only
    rw [if_pos ⟨hl, hinc⟩, if_pos hle]
  · intro hl hinc hgt
    unfold mergeEntry
    dsimp only
    rw [if_pos ⟨hl, hinc⟩, if_neg (by omega)]
  · intro hinc hver
    obtain ⟨e, he, hle, _⟩ := mergeEntry_no_shrink l ver incoming hver hinc
    exact ⟨e, he, hle⟩
  · intro hl
    unfold mergeEntry
    dsimp only
    rw [if_neg (fun hand => by rw [hl] at hand; exact Bool.noConfusion hand.1), if_pos hl]
    by_cases hlt : incoming.contentLength < l.contentLength
    · rw [if_pos hlt]
      exact ⟨l, rfl, le_refl _⟩
    · rw [if_neg hlt]
      exact ⟨incoming, rfl, by omega⟩
  · intro pushes hall hver
    obtain ⟨e, he, hle, _⟩ := mergeFold_no_shrink pushes l ver hall hver
    exact ⟨e, he, hle⟩

/-- C2 witness: a finalized entry of length 12 rejects a stale streaming push
of length 8 and is kept with the version unchanged; a streaming entry at
version 12 survives the push sequence of versions 8 then 15 with length at
least 12. -/
theorem C2_reconciliation_stale_guard_witness :
    mergeEntry (some { sequenceTimestamp := 5, contentLength := 12, streaming := false }) 12
        { sequenceTimestamp := 5, contentLength := 8, streaming := true } =
      (some { sequenceTimestamp := 5, contentLength := 12, streaming := false }, 12) ∧
    (∃ e, (mergeFold
        (some { sequenceTimestamp := 5, contentLength := 12, streaming := true }) 12
        [ { sequenceTimestamp := 5, contentLength := 8, streaming := true }
        , { sequenceTimestamp := 5, contentLength := 15, streaming := true } ]).1 = some e ∧
      12 ≤ e.contentLength) := by
  constructor
  · exact (C2_reconciliation_stale_guard
      { sequenceTimestamp := 5, contentLength := 12, streaming := false }
      { sequenceTimestamp := 5, contentLength := 8, streaming := true } 12).1
      rfl rfl (by decide)
  · exact (C2_reconciliation_stale_guard
      { sequenceTimestamp := 5, contentLength := 12, streaming := true }
      { sequenceTimestamp := 5, contentLength := 8, streaming := true } 12).2.2.2.2
      [ { sequenceTimestamp := 5, contentLength := 8, streaming := true }
      , { sequenceTimestamp := 5, contentLength := 15, streaming := true } ]
      (by intro i hi; simp at hi; rcases hi with h | h <;> rw [h]) (by decide)

end KiloCode
